import Mathlib

/-!
Verification of the chatdelta-js request-orchestration core.

The TypeScript sources are shallowly embedded: classes become structures,
methods become pure functions or explicit state transitions, JavaScript
numbers are modelled as rationals, thrown values as an explicit sum type,
and asynchronous operations as functions from the attempt index to their
settled outcome.  Each definition is translated from the source file it
names in its doc comment.
-/

namespace ChatDelta

/-- src/error.ts: `ClientErrorType` string enum.  The `val` function below
gives each member its string value exactly as declared in the enum. -/
inductive ClientErrorType where
  | Network
  | Api
  | Authentication
  | Configuration
  | Parse
  | Stream
deriving DecidableEq, Repr

/-- The string value carried by each `ClientErrorType` enum member
(`Network = 'Network'`, `Api = 'Api'`, ...). -/
def ClientErrorType.val : ClientErrorType → String
  | .Network => "Network"
  | .Api => "Api"
  | .Authentication => "Authentication"
  | .Configuration => "Configuration"
  | .Parse => "Parse"
  | .Stream => "Stream"

/-- src/error.ts: `class ClientError extends Error`.  `type` is the enum
member, `msg` the constructor argument.  The inherited `message` property is
set by the constructor to the template string modelled by
`ClientError.message` below. -/
structure ClientError where
  type : ClientErrorType
  msg : String
deriving DecidableEq, Repr

/-- src/error.ts: the `ClientError` constructor calls
`super(` + type + ` error: ` + message + `)`, so the runtime `message`
property is the type's string value, the text " error: ", then the
constructor argument.  The repository's own test file error.test.ts pins
this format (for example "Network error: Connection failed"). -/
def ClientError.message (e : ClientError) : String :=
  e.type.val ++ " error: " ++ e.msg

/-- src/error.ts `ClientError.network`. -/
def ClientError.network (m : String) : ClientError := ⟨.Network, m⟩

/-- src/error.ts `ClientError.api`. -/
def ClientError.api (m : String) : ClientError := ⟨.Api, m⟩

/-- src/error.ts `ClientError.authentication`. -/
def ClientError.authentication (m : String) : ClientError := ⟨.Authentication, m⟩

/-- src/error.ts `ClientError.configuration`. -/
def ClientError.configuration (m : String) : ClientError := ⟨.Configuration, m⟩

/-- src/error.ts `ClientError.parse`. -/
def ClientError.parse (m : String) : ClientError := ⟨.Parse, m⟩

/-- src/error.ts `ClientError.stream`. -/
def ClientError.stream (m : String) : ClientError := ⟨.Stream, m⟩

/-- A JavaScript thrown value as it is discriminated by the source:
either a `ClientError` instance, some other `Error` instance (carrying a
`message`), or a non-`Error` value (`instanceof Error` is false). -/
inductive JsThrown where
  | client (e : ClientError)
  | plainError (message : String)
  | nonError
deriving DecidableEq, Repr

/-! ### JavaScript string helpers

`String.prototype.includes`, `toLowerCase` and the regex `/HTTP 5\d\d/`
used by isRetryableError, modelled on the character lists backing Lean
strings. -/

/-- Predicate `leadsIn pat s`: `pat` is an initial segment of `s`
(character-exact). -/
def leadsIn : List Char → List Char → Bool
  | [], _ => true
  | _ :: _, [] => false
  | p :: ps, c :: cs => p = c && leadsIn ps cs

/-- Model of JavaScript `s.includes(pat)`: `pat` appears as a contiguous run
somewhere in `s` (at the current position or further right). -/
def occursIn : List Char → List Char → Bool
  | [], pat => leadsIn pat []
  | c :: t, pat => leadsIn pat (c :: t) || occursIn t pat

/-- JavaScript `s.includes(pat)` on Lean strings. -/
def jsIncludes (s pat : String) : Bool := occursIn s.data pat.data

/-- JavaScript `s.toLowerCase()` (ASCII-faithful; the sources only compare
ASCII text). -/
def jsToLower (s : String) : String := ⟨s.data.map Char.toLower⟩

/-- Condition on a list `a` and a pattern `pat` under which `pat` cannot
occur in `a ++ b` other than entirely inside `b`: no nonempty suffix of `a`
agrees with the corresponding initial cut of `pat`.  Decidable, so concrete
prefixes can be checked by evaluation. -/
def safeLead : List Char → List Char → Bool
  | [], _ => true
  | c :: t, pat => !leadsIn (pat.take (c :: t).length) (c :: t) && safeLead t pat

/-- One position of the regex `/HTTP 5\d\d/`: the text at this position is
`HTTP 5` followed by two decimal digits. -/
def http5xxAt : List Char → Bool
  | 'H' :: 'T' :: 'T' :: 'P' :: ' ' :: '5' :: d1 :: d2 :: _ => d1.isDigit && d2.isDigit
  | _ => false

/-- JavaScript `s.match(/HTTP 5\d\d/) !== null`: the pattern matches at some
position of `s`. -/
def hasHttp5xx : List Char → Bool
  | [] => false
  | c :: t => http5xxAt (c :: t) || hasHttp5xx t

/-- src/retry.ts `isRetryableError` (lines 70-101).  The checks are applied
to `error.type` (the enum's string value, capitalised) and `error.message`
(the constructor-built string, see `ClientError.message`); the source
compares `error.type` against lower-case literals `'network'`, `'api'`,
`'authentication'`, `'configuration'`. -/
def isRetryableError (error : JsThrown) : Bool :=
  match error with
  | .client e =>
    -- if (error.type === 'network') return true
    if e.type.val = "network" then true
    -- if (error.type === 'api' && error.message.toLowerCase().includes('rate limit'))
    else if e.type.val = "api" && jsIncludes (jsToLower e.message) "rate limit" then true
    -- if (error.message.toLowerCase().includes('timeout'))
    else if jsIncludes (jsToLower e.message) "timeout" then true
    -- if (error.type === 'api' && error.message.match(/HTTP 5\d\d/))
    else if e.type.val = "api" && hasHttp5xx e.message.data then true
    -- if (error.type === 'authentication' || error.type === 'configuration')
    else if e.type.val = "authentication" || e.type.val = "configuration" then false
    else false
  | _ => false  -- if (!(error instanceof ClientError)) return false

/-- src/retry.ts line 118: `lastError = error instanceof Error ? error :
new Error('Unknown error')`. -/
def toThrownError : JsThrown → JsThrown
  | .nonError => .plainError "Unknown error"
  | e => e

/-- src/retry.ts `executeWithRetry` loop body (lines 114-140), unrolled as a
recursion on the number of attempts still permitted after the current one.
`fn k` is the settled outcome of the `k`-th invocation of the operation
(0-indexed).  The value paired with the result counts how many times the
operation was invoked from this point on.  The `setTimeout` delay between
attempts suspends the caller but changes no modelled state, so it does not
appear. -/
def executeWithRetryGo (fn : Nat → Except JsThrown α) :
    Nat → Nat → Except JsThrown α × Nat
  | attempt, remaining =>
    match fn attempt with
    | .ok a => (.ok a, 1)
    | .error e =>
      match remaining with
      | 0 => (.error (toThrownError e), 1)  -- attempt >= maxAttempts: break
      | r + 1 =>
        if isRetryableError e then
          let res := executeWithRetryGo fn (attempt + 1) r
          (res.1, res.2 + 1)
        else
          (.error (toThrownError e), 1)     -- not retryable: break

/-- src/retry.ts `executeWithRetry` (lines 107-143): run `fn` for attempts
`0 .. maxAttempts`; rethrow the last observed error (coerced by
`toThrownError`) once the loop breaks.  Returns the outcome together with
the number of invocations of the operation. -/
def executeWithRetry (fn : Nat → Except JsThrown α) (maxAttempts : Nat) :
    Except JsThrown α × Nat :=
  executeWithRetryGo fn 0 maxAttempts

/-! ### Retry delay computation (src/retry.ts lines 28-65) -/

/-- src/types.ts: `RetryStrategy` enum. -/
inductive RetryStrategy where
  | Fixed
  | Linear
  | ExponentialBackoff
  | ExponentialWithJitter
deriving DecidableEq, Repr

/-- src/retry.ts lines 59-62: `if (maxDelayMs) delay = Math.min(delay,
maxDelayMs)`.  JavaScript truthiness: the cap is skipped when `maxDelayMs`
is `undefined` (`none`) or `0`. -/
def jsCapDelay (delay : ℚ) (maxDelayMs : Option ℚ) : ℚ :=
  match maxDelayMs with
  | none => delay
  | some m => if m = 0 then delay else min delay m

/-- src/retry.ts `calculateDelay` (lines 28-65).  JavaScript numbers are
modelled as rationals (so `0.1` is exactly `1/10` and `Math.pow(2, attempt)`
is exactly `2 ^ attempt`); `rand` is the sample returned by `Math.random()`,
a value in `[0, 1)`.  `Math.floor` becomes `Int.floor`. -/
def calculateDelay (strategy : RetryStrategy) (attempt : Nat)
    (baseDelayMs : ℚ) (maxDelayMs : Option ℚ) (rand : ℚ) : ℤ :=
  let delay : ℚ :=
    match strategy with
    | .Fixed => baseDelayMs
    | .Linear => baseDelayMs * (attempt + 1)
    | .ExponentialBackoff => baseDelayMs * 2 ^ attempt
    | .ExponentialWithJitter =>
      let baseExponential := baseDelayMs * 2 ^ attempt
      let jitter := rand * baseExponential * (1 / 10)
      baseExponential + jitter
  Int.floor (jsCapDelay delay maxDelayMs)

/-- Modelled from the claim's words (C6): "the result is capped at maxDelay
if present", i.e. an unconditional `min` whenever a maximum is supplied.
Compared against the source's `jsCapDelay` truthiness check. -/
def specCapDelay (delay : ℚ) (maxDelayMs : Option ℚ) : ℚ :=
  match maxDelayMs with
  | none => delay
  | some m => min delay m

/-! ### Claude error classifier (src/clients/claude.ts lines 97-128) -/

/-- The shapes of failure `Claude.handleError` discriminates between: an
axios transport error (optional connection-level `code`, optional HTTP
response `status`, and a `message`), some other `Error` instance, or a
thrown non-`Error` value. -/
inductive RawFailure where
  | axios (code : Option String) (status : Option Nat) (message : String)
  | jsError (message : String)
  | nonError
deriving DecidableEq, Repr

/-- src/clients/claude.ts `Claude.handleError` (lines 97-128), branch by
branch. -/
def handleError : RawFailure → ClientError
  | .axios code status message =>
    if code = some "ECONNABORTED" ∨ code = some "ETIMEDOUT" then
      ClientError.network "Request timeout"
    else if code = some "ECONNREFUSED" ∨ code = some "ENOTFOUND" then
      ClientError.network "Connection failed"
    else
      match status with
      | some s =>
        if s = 401 then ClientError.authentication "Invalid API key"
        else if s = 429 then ClientError.api "Rate limit exceeded"
        else ClientError.api ("HTTP " ++ toString s ++ ": " ++ message)
      | none => ClientError.network message
  | .jsError message => ClientError.parse ("JSON parsing failed: " ++ message)
  | .nonError => ClientError.network "Unknown error occurred"

/-- Restatement of claim C3's description of an unclassifiable failure: it
matches none of classification rules 1-7 of spec section 4.1 — no
connection-level error code, no HTTP status, not a decode failure (i.e. not
an `Error` that axios does not recognise), and no message text that the
message-based rules 3 and 4 ("rate limit", "timeout") would catch. -/
def matchesNoClassificationRule : RawFailure → Prop
  | .axios code status message =>
    code ≠ some "ECONNABORTED" ∧ code ≠ some "ETIMEDOUT" ∧
    code ≠ some "ECONNREFUSED" ∧ code ≠ some "ENOTFOUND" ∧
    status = none ∧
    jsIncludes (jsToLower message) "rate limit" = false ∧
    jsIncludes (jsToLower message) "timeout" = false
  | .jsError _ => False
  | .nonError => True

/-! ### Conversation and ChatSession (src/conversation.ts, src/session.ts) -/

/-- src/types.ts: message roles. -/
inductive MessageRole where
  | system
  | user
  | assistant
deriving DecidableEq, Repr

/-- src/types.ts: `Message { role, content }`. -/
structure Message where
  role : MessageRole
  content : String
deriving DecidableEq, Repr

/-- src/conversation.ts: `class Conversation`, whose only state is the
`messages` array. -/
structure Conversation where
  messages : List Message
deriving DecidableEq, Repr

/-- src/conversation.ts `addMessage`: `this.messages.push(message)`. -/
def Conversation.addMessage (c : Conversation) (m : Message) : Conversation :=
  ⟨c.messages ++ [m]⟩

/-- src/conversation.ts `addUserMessage`. -/
def Conversation.addUserMessage (c : Conversation) (content : String) : Conversation :=
  c.addMessage ⟨.user, content⟩

/-- src/conversation.ts `addAssistantMessage`. -/
def Conversation.addAssistantMessage (c : Conversation) (content : String) : Conversation :=
  c.addMessage ⟨.assistant, content⟩

/-- src/conversation.ts `getMessages` (lines 26-28): `return
[...this.messages]`.  The spread creates a fresh array holding the same
elements; the conversation keeps its own array.  The call is modelled as a
state transition returning the fresh array's contents together with the
conversation after the call: because the method only reads `this.messages`,
the post-state is the pre-state, and because the returned array is a new
object, later in-place mutation of it cannot reach `this.messages`. -/
def Conversation.getMessages (c : Conversation) : List Message × Conversation :=
  (c.messages, c)

/-- src/conversation.ts `getMessageCount`. -/
def Conversation.getMessageCount (c : Conversation) : Nat :=
  c.messages.length

/-- src/conversation.ts `clear`. -/
def Conversation.clear (_ : Conversation) : Conversation := ⟨[]⟩

/-- Model of JavaScript `arr.pop()` applied to an array value: it removes
the last element in place.  Applied below only to local arrays returned by
`getMessages`, never to an array stored in a `Conversation`. -/
def jsPop (arr : List Message) : List Message := arr.dropLast

/-- src/session.ts `ChatSession.send` (lines 35-48), catch branch: the state
of the session's conversation after `sendConversation` has rejected.  The
method first runs `this.conversation.addUserMessage(message)`; in the catch
block it runs `const messages = this.conversation.getMessages();
messages.pop();` and rethrows.  The pop acts on the fresh copy returned by
`getMessages`, not on the conversation's own array.
`ChatSession.sendWithMetadata` and `ChatSession.stream` have catch blocks
with exactly the same three statements. -/
def ChatSession.sendFailurePath (conv : Conversation) (message : String) : Conversation :=
  let conv := conv.addUserMessage message
  let (messages, conv) := conv.getMessages
  let _popped := jsPop messages
  conv

/-! ### Metrics aggregator (src/metrics.ts) -/

/-- src/metrics.ts: the private fields of `class ClientMetrics`.  Counters
and token totals are JavaScript numbers only ever incremented by integral
amounts, modelled as naturals; latencies and times are arbitrary numbers,
modelled as rationals. -/
structure ClientMetrics where
  requestsTotal : Nat
  requestsSucceeded : Nat
  requestsFailed : Nat
  totalLatencyMs : ℚ
  latencies : List ℚ
  promptTokensTotal : Nat
  completionTokensTotal : Nat
  cacheHits : Nat
  cacheMisses : Nat
  startTime : ℚ
deriving DecidableEq, Repr

/-- src/metrics.ts: field initialisers (every counter 0, empty latency list,
`startTime = Date.now()`, the construction instant). -/
def ClientMetrics.init (now : ℚ) : ClientMetrics :=
  ⟨0, 0, 0, 0, [], 0, 0, 0, 0, now⟩

/-- src/metrics.ts `recordSuccess` (lines 20-36). -/
def ClientMetrics.recordSuccess (s : ClientMetrics)
    (latencyMs : Option ℚ) (promptTokens completionTokens : Option Nat) : ClientMetrics :=
  { s with
    requestsTotal := s.requestsTotal + 1
    requestsSucceeded := s.requestsSucceeded + 1
    totalLatencyMs := s.totalLatencyMs + (latencyMs.getD 0)
    latencies := match latencyMs with
      | some l => s.latencies ++ [l]
      | none => s.latencies
    promptTokensTotal := s.promptTokensTotal + promptTokens.getD 0
    completionTokensTotal := s.completionTokensTotal + completionTokens.getD 0 }

/-- src/metrics.ts `recordFailure` (lines 41-44). -/
def ClientMetrics.recordFailure (s : ClientMetrics) : ClientMetrics :=
  { s with
    requestsTotal := s.requestsTotal + 1
    requestsFailed := s.requestsFailed + 1 }

/-- src/metrics.ts `calculatePercentile` (lines 114-122): return `0` on an
empty collection, otherwise sort a copy ascending (`sort((a, b) => a - b)`,
modelled by insertion sort, which is likewise stable) and pick the entry at
`Math.ceil((percentile / 100) * n) - 1`, clamped below by `0`.  For the
percentiles the class uses (50, 95, 99) the clamped index is always in
range; `getD` supplies an arbitrary default outside it. -/
def calculatePercentile (latencies : List ℚ) (percentile : ℚ) : ℚ :=
  if latencies = [] then 0
  else
    let sorted := latencies.insertionSort (· ≤ ·)
    let index : ℤ := Int.ceil ((percentile / 100) * (latencies.length : ℚ)) - 1
    sorted.getD (max 0 index).toNat 0

/-- src/metrics.ts: the `MetricsSnapshot` interface (lines 128-145). -/
structure MetricsSnapshot where
  requestsTotal : Nat
  requestsSucceeded : Nat
  requestsFailed : Nat
  successRate : ℚ
  averageLatencyMs : ℚ
  p50LatencyMs : ℚ
  p95LatencyMs : ℚ
  p99LatencyMs : ℚ
  promptTokensTotal : Nat
  completionTokensTotal : Nat
  totalTokens : Nat
  cacheHits : Nat
  cacheMisses : Nat
  cacheHitRate : ℚ
  durationMs : ℚ
  requestsPerSecond : ℚ
deriving DecidableEq, Repr

/-- src/metrics.ts `getSnapshot` (lines 63-93).  `Date.now()` is modelled as
the explicit argument `now`.  The method body contains no assignment to any
field of `this`, so the call is modelled as a state transition whose
post-state is the pre-state; it is returned in the second component. -/
def ClientMetrics.getSnapshot (s : ClientMetrics) (now : ℚ) :
    MetricsSnapshot × ClientMetrics :=
  let durationMs := now - s.startTime
  (⟨s.requestsTotal,
    s.requestsSucceeded,
    s.requestsFailed,
    if s.requestsTotal > 0 then
      ((s.requestsSucceeded : ℚ) / (s.requestsTotal : ℚ)) * 100
    else 0,
    if s.latencies.length > 0 then
      s.totalLatencyMs / (s.latencies.length : ℚ)
    else 0,
    calculatePercentile s.latencies 50,
    calculatePercentile s.latencies 95,
    calculatePercentile s.latencies 99,
    s.promptTokensTotal,
    s.completionTokensTotal,
    s.promptTokensTotal + s.completionTokensTotal,
    s.cacheHits,
    s.cacheMisses,
    if s.cacheHits + s.cacheMisses > 0 then
      ((s.cacheHits : ℚ) / ((s.cacheHits : ℚ) + (s.cacheMisses : ℚ))) * 100
    else 0,
    durationMs,
    if durationMs > 0 then ((s.requestsTotal : ℚ) / durationMs) * 1000 else 0⟩,
   s)

/-! ### Parallel fan-out (src/index.ts lines 110-127) -/

/-- One client as `executeParallel` observes it: its `name()` and the
settled outcome of its `sendPrompt(prompt)` promise (a fulfilment value or a
rejection reason). -/
structure ParClient where
  name : String
  result : Except JsThrown String
deriving Repr

/-- The `string | ClientError` union stored in each result slot. -/
inductive ParResult where
  | success (s : String)
  | failure (e : ClientError)
deriving DecidableEq, Repr

/-- One element of the array `executeParallel` resolves with. -/
structure ParOutcome where
  name : String
  result : ParResult
deriving DecidableEq, Repr

/-- src/index.ts lines 114-124: the per-client async closure.  It cannot
reject: the try returns the fulfilment value under the client's name, and
the catch converts any rejection into a result value, keeping a thrown
`ClientError` as-is and replacing any other thrown value with
`ClientError.network('Unknown error')`. -/
def settleClient (client : ParClient) : ParOutcome :=
  match client.result with
  | .ok r => ⟨client.name, .success r⟩
  | .error e =>
    ⟨client.name,
     .failure (match e with
       | .client ce => ce
       | _ => ClientError.network "Unknown error")⟩

/-- src/index.ts `executeParallel` (lines 110-127): map each client through
its non-rejecting closure, then `Promise.all`, which resolves with the
results in input order regardless of settlement order. -/
def executeParallel (clients : List ParClient) : List ParOutcome :=
  clients.map settleClient

/-! ### A JSON value model and `JSON.parse`

src/clients/claude.ts parses each `data:` line with `JSON.parse` and then
reads `parsed.type` and `parsed.delta?.text`.  The parser below covers the
JSON subset those payloads use (objects, arrays, strings with simple
escapes, integers, booleans, null); an input outside the subset parses to
`none`, which the decoder treats exactly like a `JSON.parse` exception. -/

/-- The characters `JSON.parse` (and `String.prototype.trim`) treat as
whitespace, restricted to the ASCII ones the sources can meet. -/
def isWsChar (c : Char) : Bool := c = ' ' ∨ c = '\n' ∨ c = '\t' ∨ c = '\r'

/-- Drop leading whitespace. -/
def skipWs : List Char → List Char
  | [] => []
  | c :: rest => if isWsChar c then skipWs rest else c :: rest

/-- JavaScript `s.trim()`. -/
def trimChars (l : List Char) : List Char :=
  ((l.dropWhile isWsChar).reverse.dropWhile isWsChar).reverse

/-- An opening curly brace character. -/
def lbraceChar : Char := Char.ofNat 123

/-- A closing curly brace character. -/
def rbraceChar : Char := Char.ofNat 125

/-- A parsed JSON value. -/
inductive Json where
  | null
  | tru
  | fls
  | num (n : Int)
  | str (s : String)
  | arr (elems : List Json)
  | obj (fields : List (String × Json))

/-- Decode one character escape inside a JSON string literal. -/
def jsonUnescape (esc : Char) : Option Char :=
  if esc = '"' ∨ esc = '\\' ∨ esc = '/' then some esc
  else if esc = 'n' then some '\n'
  else if esc = 't' then some '\t'
  else if esc = 'r' then some '\r'
  else none

/-- Parse the body of a JSON string literal (the opening quote already
consumed): returns the decoded characters and the input after the closing
quote. -/
def parseStringBody : List Char → Option (List Char × List Char)
  | [] => none
  | '"' :: rest => some ([], rest)
  | '\\' :: esc :: rest2 =>
    match jsonUnescape esc with
    | some d => (parseStringBody rest2).map fun p => (d :: p.1, p.2)
    | none => none
  | '\\' :: [] => none
  | c :: rest => (parseStringBody rest).map fun p => (c :: p.1, p.2)

/-- Parse a run of decimal digits, accumulating their value. -/
def parseDigits : List Char → Nat → Nat × List Char
  | [], acc => (acc, [])
  | c :: rest, acc =>
    if c.isDigit then parseDigits rest (acc * 10 + (c.toNat - 48))
    else (acc, c :: rest)

mutual

/-- Parse one JSON value.  The first argument is recursion fuel; the
top-level wrapper supplies more fuel than any input of that length can
consume. -/
def parseValue : Nat → List Char → Option (Json × List Char)
  | 0, _ => none
  | fuel + 1, input =>
    match skipWs input with
    | [] => none
    | c :: rest =>
      if c = '"' then
        match parseStringBody rest with
        | some (s, r) => some (.str ⟨s⟩, r)
        | none => none
      else if c = lbraceChar then
        match skipWs rest with
        | [] => none
        | d :: r2 =>
          if d = rbraceChar then some (.obj [], r2)
          else
            match parseMembers fuel (d :: r2) with
            | some (fields, r3) => some (.obj fields, r3)
            | none => none
      else if c = '[' then
        match skipWs rest with
        | [] => none
        | d :: r2 =>
          if d = ']' then some (.arr [], r2)
          else
            match parseElems fuel (d :: r2) with
            | some (vs, r3) => some (.arr vs, r3)
            | none => none
      else if c = 't' then
        match rest with
        | 'r' :: 'u' :: 'e' :: r => some (.tru, r)
        | _ => none
      else if c = 'f' then
        match rest with
        | 'a' :: 'l' :: 's' :: 'e' :: r => some (.fls, r)
        | _ => none
      else if c = 'n' then
        match rest with
        | 'u' :: 'l' :: 'l' :: r => some (.null, r)
        | _ => none
      else if c = '-' then
        match rest with
        | d :: r2 =>
          if d.isDigit then
            let (n, r3) := parseDigits r2 (d.toNat - 48)
            some (.num (-(n : Int)), r3)
          else none
        | [] => none
      else if c.isDigit then
        let (n, r2) := parseDigits rest (c.toNat - 48)
        some (.num (n : Int), r2)
      else none

/-- Parse the members of a JSON object, positioned at the first key. -/
def parseMembers : Nat → List Char → Option (List (String × Json) × List Char)
  | 0, _ => none
  | fuel + 1, input =>
    match skipWs input with
    | '"' :: rest =>
      match parseStringBody rest with
      | some (key, r1) =>
        match skipWs r1 with
        | ':' :: r2 =>
          match parseValue fuel r2 with
          | some (v, r3) =>
            match skipWs r3 with
            | [] => none
            | c :: r4 =>
              if c = ',' then
                match parseMembers fuel r4 with
                | some (fields, r5) => some ((⟨key⟩, v) :: fields, r5)
                | none => none
              else if c = rbraceChar then some ([(⟨key⟩, v)], r4)
              else none
          | none => none
        | _ => none
      | none => none
    | _ => none

/-- Parse the elements of a JSON array, positioned at the first element. -/
def parseElems : Nat → List Char → Option (List Json × List Char)
  | 0, _ => none
  | fuel + 1, input =>
    match parseValue fuel input with
    | some (v, r1) =>
      match skipWs r1 with
      | ',' :: r2 =>
        match parseElems fuel r2 with
        | some (vs, r3) => some (v :: vs, r3)
        | none => none
      | ']' :: r2 => some ([v], r2)
      | _ => none
    | none => none

end

/-- Model of `JSON.parse` on a character list: parse one value and require
only whitespace to remain, as `JSON.parse` does. -/
def jsonParse (s : List Char) : Option Json :=
  match parseValue (s.length + 1) s with
  | some (v, rest) => if skipWs rest = [] then some v else none
  | none => none

/-- JavaScript property read `v[key]` on a parsed JSON value: `undefined`
(`none`) unless `v` is an object with that key; with duplicate keys
`JSON.parse` keeps the last occurrence. -/
def jsGet (v : Json) (key : String) : Option Json :=
  match v with
  | .obj fields => fields.foldl (fun acc f => if f.1 = key then some f.2 else acc) none
  | _ => none

/-- JavaScript strict equality `v === lit` between a property read and a
string literal: true exactly when the value is defined and is that
string. -/
def strictEqStr (v : Option Json) (lit : String) : Bool :=
  match v with
  | some (.str t) => t = lit
  | _ => false

/-- Model of `parsed.delta?.text`: optional chaining yields `undefined` when
`parsed.delta` is `undefined` or `null`; otherwise an ordinary property read
of `text`. -/
def deltaOptText (parsed : Json) : Option Json :=
  match jsGet parsed "delta" with
  | none => none
  | some .null => none
  | some d => jsGet d "text"

/-- JavaScript truthiness of a JSON value. -/
def jsTruthy : Json → Bool
  | .null => false
  | .tru => true
  | .fls => false
  | .num n => n ≠ 0
  | .str s => s ≠ ""
  | .arr _ => true
  | .obj _ => true

/-! ### Claude streaming decoder (src/clients/claude.ts lines 130-188) -/

/-- One `StreamChunk` yielded by the decoder (src/types.ts).  The `content`
field holds the JavaScript value the source places there: the parsed
`delta.text` for content events and the empty string for final events. -/
structure StreamChunk where
  content : Json
  isComplete : Bool

/-- What processing one complete line does: nothing, yield a content chunk,
or yield the final chunk and stop the generator. -/
inductive LineStep where
  | skip
  | yieldContent (c : Json)
  | finish

/-- src/clients/claude.ts lines 158-182: handle one complete line.  Lines
not starting with `data: ` are ignored; the payload is the line after that
marker, trimmed.  The sentinel `[DONE]` finishes the stream; otherwise the
payload is parsed as JSON (a parse failure is silently skipped), a
`content_block_delta` with truthy `delta?.text` yields a content chunk, a
`message_stop` finishes the stream, and anything else is skipped. -/
def processDataLine (line : List Char) : LineStep :=
  if leadsIn "data: ".data line then
    let data := trimChars (line.drop 6)
    if data = "[DONE]".data then .finish
    else
      match jsonParse data with
      | none => .skip
      | some parsed =>
        if strictEqStr (jsGet parsed "type") "content_block_delta" then
          match deltaOptText parsed with
          | some content => if jsTruthy content then .yieldContent content else .skip
          | none => .skip
        else if strictEqStr (jsGet parsed "type") "message_stop" then .finish
        else .skip
  else .skip

/-- JavaScript `s.split('\n')`: every segment between newlines, including a
leading, trailing or middle empty segment. -/
def splitNl : List Char → List (List Char)
  | [] => [[]]
  | c :: rest =>
    if c = '\n' then [] :: splitNl rest
    else
      match splitNl rest with
      | l :: ls => (c :: l) :: ls
      | [] => [[c]]

/-- Process the complete lines of one transport chunk in order, collecting
yielded chunks; the boolean reports whether a `finish` step ended the
generator (the source `return`s there, dropping any later lines). -/
def processLines : List (List Char) → List StreamChunk × Bool
  | [] => ([], false)
  | l :: rest =>
    match processDataLine l with
    | .skip => processLines rest
    | .yieldContent c =>
      let (evs, t) := processLines rest
      (⟨c, false⟩ :: evs, t)
    | .finish => ([⟨.str "", true⟩], true)

/-- src/clients/claude.ts lines 151-184, the chunk loop: append the chunk to
the buffered tail, split into lines, pop the segment after the last newline
back into the buffer, process the complete lines, and continue with the
next chunk unless a finish step `return`ed.  A transport feed that ends
without a `[DONE]` or `message_stop` simply ends the sequence. -/
def sendPromptStreamGo (buffer : List Char) : List String → List StreamChunk
  | [] => []
  | chunk :: rest =>
    let lines := splitNl (buffer ++ chunk.data)
    let newBuffer := lines.getLastD []
    let (evs, terminated) := processLines lines.dropLast
    if terminated then evs else evs ++ sendPromptStreamGo newBuffer rest

/-- src/clients/claude.ts `Claude.sendPromptStream` (lines 130-188) viewed
from its transport boundary: the finite sequence of chunks the generator
yields for a given sequence of transport chunks, starting from an empty
buffer.  (`sendConversationStream`, lines 229-287, contains the identical
decoding loop.) -/
def Claude.sendPromptStream (chunks : List String) : List StreamChunk :=
  sendPromptStreamGo [] chunks

/-! ## Theorems -/

/-! ### Substring facts used by the retry-classification claims -/

/-- If the pattern leads `x ++ b`, its initial cut of `x`'s length leads
`x`. -/
theorem leadsIn_take (x : List Char) : ∀ pat b : List Char,
    leadsIn pat (x ++ b) = true → leadsIn (pat.take x.length) x = true := by
  induction x with
  | nil => intro pat b _; simp [leadsIn]
  | cons c xs ih =>
    intro pat b h
    cases pat with
    | nil => simp [leadsIn]
    | cons p ps =>
      rw [List.cons_append, leadsIn, Bool.and_eq_true] at h
      rw [List.length_cons, List.take_succ_cons, leadsIn, Bool.and_eq_true]
      exact ⟨h.1, ih ps b h.2⟩

/-- Under `safeLead a pat`, an occurrence of `pat` in `a ++ b` is exactly an
occurrence in `b`. -/
theorem occursIn_append_of_safeLead (b pat : List Char) :
    ∀ a : List Char, safeLead a pat = true → occursIn (a ++ b) pat = occursIn b pat := by
  intro a
  induction a with
  | nil => intro _; rfl
  | cons c t ih =>
    intro hsafe
    rw [safeLead, Bool.and_eq_true, Bool.not_eq_true'] at hsafe
    obtain ⟨h1, h2⟩ := hsafe
    have hlead : leadsIn pat ((c :: t) ++ b) = false := by
      cases hl : leadsIn pat ((c :: t) ++ b) with
      | false => rfl
      | true => rw [leadsIn_take (c :: t) pat b hl] at h1; cases h1
    rw [List.cons_append] at hlead ⊢
    rw [occursIn, hlead, Bool.false_or]
    exact ih h2

/-- String append acts as list append on the backing character lists. -/
theorem strData_append (a b : String) : (a ++ b).data = a.data ++ b.data := by
  cases a; cases b; rfl

/-- Lower-casing the constructed `ClientError` message splits at the
boundary between the fixed prefix and the constructor argument. -/
theorem message_lower_data (t : ClientErrorType) (m : String) :
    (jsToLower (ClientError.message ⟨t, m⟩)).data
      = (jsToLower (t.val ++ " error: ")).data ++ (jsToLower m).data := by
  simp [ClientError.message, jsToLower, strData_append]

/-- The "timeout"/"rate limit" membership test on a constructed message
reduces to the same test on the constructor argument whenever the fixed
prefix cannot take part in a match. -/
theorem jsIncludes_message_lower (t : ClientErrorType) (m pat : String)
    (hsafe : safeLead (jsToLower (t.val ++ " error: ")).data pat.data = true) :
    jsIncludes (jsToLower (ClientError.message ⟨t, m⟩)) pat
      = jsIncludes (jsToLower m) pat := by
  unfold jsIncludes
  rw [message_lower_data, occursIn_append_of_safeLead _ _ _ hsafe]

/-! ### Retry loop facts -/

/-- A retryable thrown value is a `ClientError` instance, hence an `Error`,
and the `lastError` coercion keeps it unchanged. -/
theorem toThrownError_of_retryable (e : JsThrown)
    (h : isRetryableError e = true) : toThrownError e = e := by
  cases e with
  | client ce => rfl
  | plainError m => simp [isRetryableError] at h
  | nonError => simp [isRetryableError] at h

/-- Unrolled retry loop under an operation that fails retryably on every
invocation: it runs once per permitted attempt and ends with the error of
the final attempt. -/
theorem executeWithRetryGo_exhaust {α} (fn : Nat → Except JsThrown α)
    (e : Nat → JsThrown) (hfn : ∀ k, fn k = .error (e k))
    (hretry : ∀ k, isRetryableError (e k) = true) :
    ∀ remaining attempt : Nat,
      executeWithRetryGo fn attempt remaining
        = (.error (e (attempt + remaining)), remaining + 1) := by
  intro remaining
  induction remaining with
  | zero =>
    intro attempt
    rw [executeWithRetryGo, hfn attempt]
    simp [toThrownError_of_retryable _ (hretry attempt)]
  | succ r ih =>
    intro attempt
    rw [executeWithRetryGo, hfn attempt]
    simp only [hretry attempt, if_true, ih (attempt + 1)]
    have harith : attempt + 1 + r = attempt + (r + 1) := by omega
    rw [harith]

/-- If the operation's first failure is not retryable, the loop breaks after
one invocation and rethrows that failure (coerced to an `Error`). -/
theorem executeWithRetry_nonRetryable {α} (fn : Nat → Except JsThrown α)
    (e : JsThrown) (maxAttempts : Nat) (hfn : fn 0 = .error e)
    (h : isRetryableError e = false) :
    executeWithRetry fn maxAttempts = (.error (toThrownError e), 1) := by
  cases maxAttempts with
  | zero => rw [executeWithRetry, executeWithRetryGo, hfn]
  | succ r => rw [executeWithRetry, executeWithRetryGo, hfn]; simp [h]

/-- Claim C2: for every maxAttempts and every operation that throws a
retryable classified error on every invocation, `executeWithRetry` invokes
the operation exactly `maxAttempts + 1` times (one initial attempt plus
`maxAttempts` retries) and then raises the error observed on the last
attempt (attempt index `maxAttempts`), not the first. -/
theorem executeWithRetry_exhausts_retryable {α} (fn : Nat → Except JsThrown α)
    (e : Nat → JsThrown) (maxAttempts : Nat) (hfn : ∀ k, fn k = .error (e k))
    (hretry : ∀ k, isRetryableError (e k) = true) :
    executeWithRetry fn maxAttempts = (.error (e maxAttempts), maxAttempts + 1) := by
  have h := executeWithRetryGo_exhaust fn e hfn hretry maxAttempts 0
  rw [executeWithRetry, h, Nat.zero_add]

/-- Claim C2 witness: a network ClientError whose message contains
"timeout" is retryable, and with `maxAttempts = 3` the loop invokes the
operation exactly 4 times and rethrows that error. -/
theorem executeWithRetry_exhausts_retryable_witness :
    executeWithRetry
        (fun _ => (.error (.client (ClientError.network "Request timeout")) : Except JsThrown Unit)) 3
      = (.error (.client (ClientError.network "Request timeout")), 4) := by
  have h : isRetryableError (.client (ClientError.network "Request timeout")) = true := by
    decide
  exact executeWithRetry_exhausts_retryable _
    (fun _ => .client (ClientError.network "Request timeout")) 3
    (fun _ => rfl) (fun _ => h)

/-- Claim C3: a failure matching none of classification rules 1-7 (no
connection-level error code, no HTTP status, not a decode failure, no
rate-limit/timeout message text) is classified by `Claude.handleError` as
kind Network, `isRetryableError` returns false on the classifier's output,
and `executeWithRetry` over an operation that always throws it performs
exactly one invocation for every maxAttempts. -/
theorem unclassifiable_is_network_not_retryable (f : RawFailure) (maxAttempts : Nat)
    (h : matchesNoClassificationRule f) :
    (handleError f).type = ClientErrorType.Network ∧
    isRetryableError (.client (handleError f)) = false ∧
    executeWithRetry
        (fun _ => (.error (.client (handleError f)) : Except JsThrown Unit)) maxAttempts
      = (.error (.client (handleError f)), 1) := by
  have hsafe : safeLead (jsToLower (ClientErrorType.Network.val ++ " error: ")).data
      "timeout".data = true := by decide
  cases f with
  | jsError m => exact absurd h (by simp [matchesNoClassificationRule])
  | nonError =>
    refine ⟨rfl, by decide, ?_⟩
    exact executeWithRetry_nonRetryable
      (fun _ => (.error (.client (handleError .nonError)) : Except JsThrown Unit))
      (.client (handleError .nonError)) maxAttempts rfl (by decide)
  | axios code status message =>
    obtain ⟨h1, h2, h3, h4, h5, _h6, h7⟩ := h
    subst h5
    have hclass : handleError (.axios code none message) = ClientError.network message := by
      simp [handleError, h1, h2, h3, h4]
    have hmsg : jsIncludes (jsToLower (ClientError.message ⟨.Network, message⟩)) "timeout"
        = false := by
      rw [jsIncludes_message_lower _ _ _ hsafe]; exact h7
    have hretry : isRetryableError (.client (ClientError.network message)) = false := by
      rw [isRetryableError]
      simp only [ClientError.network] at hmsg ⊢
      rw [hmsg]
      simp [ClientErrorType.val]
    refine ⟨by rw [hclass]; rfl, by rw [hclass]; exact hretry, ?_⟩
    rw [hclass]
    exact executeWithRetry_nonRetryable
      (fun _ => (.error (.client (ClientError.network message)) : Except JsThrown Unit))
      (.client (ClientError.network message)) maxAttempts rfl hretry

/-- Claim C3 witness: an axios failure with unrecognised connection code
`EPIPE`, no HTTP response and message "socket hang up" matches no rule, is
classified as Network, is not retryable, and is attempted once even with
`maxAttempts = 5`. -/
theorem unclassifiable_is_network_not_retryable_witness :
    (handleError (.axios (some "EPIPE") none "socket hang up")).type = ClientErrorType.Network ∧
    isRetryableError (.client (handleError (.axios (some "EPIPE") none "socket hang up"))) = false ∧
    executeWithRetry
        (fun _ => (.error (.client (handleError (.axios (some "EPIPE") none "socket hang up"))) : Except JsThrown Unit)) 5
      = (.error (.client (handleError (.axios (some "EPIPE") none "socket hang up"))), 1) :=
  unclassifiable_is_network_not_retryable (.axios (some "EPIPE") none "socket hang up") 5
    ⟨by decide, by decide, by decide, by decide, rfl, by decide, by decide⟩

/-- Claim C5 counterexample: the claim quantifies over every message
string, but an Authentication ClientError whose constructor message is
"timeout" is retryable (`isRetryableError` returns true, because the
case-insensitive "timeout" text check precedes the authentication check)
and `executeWithRetry` with `maxAttempts = 3` invokes the operation 4
times, not once. -/
theorem auth_timeout_retryable_counterexample :
    isRetryableError (.client (ClientError.authentication "timeout")) = true ∧
    (executeWithRetry
        (fun _ => (.error (.client (ClientError.authentication "timeout")) : Except JsThrown Unit)) 3).2
      = 4 := by
  exact ⟨by decide, by decide⟩

/-- Claim C5 (amended): for every message string whose lower-casing does not
contain "timeout", a ClientError of type Authentication or Configuration is
not retryable, and `executeWithRetry` over an operation that always throws
it performs exactly one invocation regardless of maxAttempts. -/
theorem auth_config_not_retryable (m : String) (maxAttempts : Nat)
    (hm : jsIncludes (jsToLower m) "timeout" = false) :
    isRetryableError (.client (ClientError.authentication m)) = false ∧
    isRetryableError (.client (ClientError.configuration m)) = false ∧
    executeWithRetry
        (fun _ => (.error (.client (ClientError.authentication m)) : Except JsThrown Unit)) maxAttempts
      = (.error (.client (ClientError.authentication m)), 1) ∧
    executeWithRetry
        (fun _ => (.error (.client (ClientError.configuration m)) : Except JsThrown Unit)) maxAttempts
      = (.error (.client (ClientError.configuration m)), 1) := by
  have hsafeA : safeLead (jsToLower (ClientErrorType.Authentication.val ++ " error: ")).data
      "timeout".data = true := by decide
  have hsafeC : safeLead (jsToLower (ClientErrorType.Configuration.val ++ " error: ")).data
      "timeout".data = true := by decide
  have hmA : jsIncludes (jsToLower (ClientError.message ⟨.Authentication, m⟩)) "timeout"
      = false := by rw [jsIncludes_message_lower _ _ _ hsafeA]; exact hm
  have hmC : jsIncludes (jsToLower (ClientError.message ⟨.Configuration, m⟩)) "timeout"
      = false := by rw [jsIncludes_message_lower _ _ _ hsafeC]; exact hm
  have hA : isRetryableError (.client (ClientError.authentication m)) = false := by
    rw [isRetryableError]
    simp only [ClientError.authentication] at hmA ⊢
    rw [hmA]
    simp [ClientErrorType.val]
  have hC : isRetryableError (.client (ClientError.configuration m)) = false := by
    rw [isRetryableError]
    simp only [ClientError.configuration] at hmC ⊢
    rw [hmC]
    simp [ClientErrorType.val]
  exact ⟨hA, hC,
    executeWithRetry_nonRetryable
      (fun _ => (.error (.client (ClientError.authentication m)) : Except JsThrown Unit))
      (.client (ClientError.authentication m)) maxAttempts rfl hA,
    executeWithRetry_nonRetryable
      (fun _ => (.error (.client (ClientError.configuration m)) : Except JsThrown Unit))
      (.client (ClientError.configuration m)) maxAttempts rfl hC⟩

/-- Claim C5 witness: with the message "Invalid API key" (no "timeout"
text) and `maxAttempts = 3`, both error types are non-retryable and the
operation runs exactly once. -/
theorem auth_config_not_retryable_witness :
    isRetryableError (.client (ClientError.authentication "Invalid API key")) = false ∧
    isRetryableError (.client (ClientError.configuration "Invalid API key")) = false ∧
    executeWithRetry
        (fun _ => (.error (.client (ClientError.authentication "Invalid API key")) : Except JsThrown Unit)) 3
      = (.error (.client (ClientError.authentication "Invalid API key")), 1) ∧
    executeWithRetry
        (fun _ => (.error (.client (ClientError.configuration "Invalid API key")) : Except JsThrown Unit)) 3
      = (.error (.client (ClientError.configuration "Invalid API key")), 1) :=
  auth_config_not_retryable "Invalid API key" 3 (by decide)

/-! ### Retry delay claims -/

/-- Claim C6 counterexample: the claim says the result is capped at
maxDelay whenever one is present, but with `maxDelay = 0` present the
source's truthiness test skips the cap: a Fixed delay of 5 stays 5 where
the claimed cap (`specCapDelay`, the unconditional min) would give 0. -/
theorem calculateDelay_zero_cap_counterexample :
    calculateDelay .Fixed 0 5 (some 0) 0 = 5 ∧
    Int.floor (specCapDelay 5 (some 0)) = 0 ∧
    (5 : ℤ) ≠ 0 := by
  refine ⟨by decide, ?_, by decide⟩
  norm_num [specCapDelay]

/-- Claim C6 (amended): for every 0-indexed attempt, base delay and jitter
sample in `[0, 1)`, the computed delay is the claimed formula for each
strategy — Fixed `b`, Linear `b * (attempt + 1)`, ExponentialBackoff
`b * 2 ^ attempt`, ExponentialWithJitter a value within 10% above
`b * 2 ^ attempt` — capped at maxDelay if present and nonzero (a maxDelay
of 0 is treated as absent by the source's truthiness test) and floored to
an integral number of milliseconds. -/
theorem calculateDelay_formulas (attempt : Nat) (b r : ℚ) (maxD : Option ℚ)
    (hb : 0 ≤ b) (hr0 : 0 ≤ r) (hr1 : r < 1)
    (hmax : ∀ m : ℚ, maxD = some m → m ≠ 0) :
    calculateDelay .Fixed attempt b maxD r
      = Int.floor (specCapDelay b maxD) ∧
    calculateDelay .Linear attempt b maxD r
      = Int.floor (specCapDelay (b * ((attempt : ℚ) + 1)) maxD) ∧
    calculateDelay .ExponentialBackoff attempt b maxD r
      = Int.floor (specCapDelay (b * 2 ^ attempt) maxD) ∧
    ∃ d : ℚ, b * 2 ^ attempt ≤ d ∧ d ≤ (11 / 10) * (b * 2 ^ attempt) ∧
      calculateDelay .ExponentialWithJitter attempt b maxD r
        = Int.floor (specCapDelay d maxD) := by
  have hcap : ∀ d : ℚ, jsCapDelay d maxD = specCapDelay d maxD := by
    intro d
    cases maxD with
    | none => rfl
    | some m => simp [jsCapDelay, specCapDelay, hmax m rfl]
  have hbe : (0 : ℚ) ≤ b * 2 ^ attempt := by positivity
  refine ⟨?_, ?_, ?_, ?_⟩
  · rw [← hcap b]; rfl
  · rw [← hcap (b * ((attempt : ℚ) + 1))]; rfl
  · rw [← hcap (b * 2 ^ attempt)]; rfl
  · refine ⟨b * 2 ^ attempt + r * (b * 2 ^ attempt) * (1 / 10), ?_, ?_, ?_⟩
    · nlinarith
    · nlinarith [mul_nonneg (sub_nonneg.mpr hr1.le) hbe]
    · rw [← hcap (b * 2 ^ attempt + r * (b * 2 ^ attempt) * (1 / 10))]; rfl

/-- Claim C6 witness: attempt 2, base delay 1000, jitter sample 1/2,
maxDelay 30000. -/
theorem calculateDelay_formulas_witness :
    calculateDelay .Fixed 2 1000 (some 30000) (1 / 2)
      = Int.floor (specCapDelay 1000 (some 30000)) ∧
    calculateDelay .Linear 2 1000 (some 30000) (1 / 2)
      = Int.floor (specCapDelay (1000 * (((2 : Nat) : ℚ) + 1)) (some 30000)) ∧
    calculateDelay .ExponentialBackoff 2 1000 (some 30000) (1 / 2)
      = Int.floor (specCapDelay (1000 * 2 ^ 2) (some 30000)) ∧
    ∃ d : ℚ, 1000 * 2 ^ 2 ≤ d ∧ d ≤ (11 / 10) * (1000 * 2 ^ 2) ∧
      calculateDelay .ExponentialWithJitter 2 1000 (some 30000) (1 / 2)
        = Int.floor (specCapDelay d (some 30000)) :=
  calculateDelay_formulas 2 1000 (1 / 2) (some 30000)
    (by norm_num) (by norm_num) (by norm_num)
    (fun m hm => by cases hm; norm_num)

/-! ### Session rollback claim -/

/-- Claim C1 (code-bug evidence): after a failed send the conversation does
not return to its pre-send state.  Starting from an empty conversation and
sending "hi" against a client whose `sendConversation` rejects, the
conversation afterwards still holds the user turn: the catch block's
`messages.pop()` removes the last element of the fresh copy returned by
`getMessages`, not of the conversation's own array, so no rollback
happens. -/
theorem sendFailurePath_keeps_user_message :
    (ChatSession.sendFailurePath ⟨[]⟩ "hi").messages = [⟨.user, "hi"⟩] ∧
    (ChatSession.sendFailurePath ⟨[]⟩ "hi").messages ≠ ([] : List Message) :=
  ⟨rfl, by decide⟩

/-- Claim C10: `getMessages` returns a fresh copy: popping the returned
array leaves the conversation's own message list unchanged, so a subsequent
`getMessages` or `getMessageCount` reflects the state as it was before the
mutation, and (for a nonempty conversation) the popped local array no
longer agrees with what the conversation reports. -/
theorem getMessages_returns_copy (c : Conversation) :
    (c.getMessages).2 = c ∧
    jsPop (c.getMessages).1 = c.messages.dropLast ∧
    ((c.getMessages).2.getMessages).1 = c.messages ∧
    (c.getMessages).2.getMessageCount = c.messages.length ∧
    (c.messages ≠ [] → jsPop (c.getMessages).1 ≠ ((c.getMessages).2.getMessages).1) := by
  refine ⟨rfl, rfl, rfl, rfl, ?_⟩
  intro hne heq
  have hlen := congrArg List.length heq
  simp only [jsPop, Conversation.getMessages, List.length_dropLast] at hlen
  have : c.messages.length ≠ 0 := by
    intro h0
    exact hne (List.length_eq_zero.mp h0)
  omega

/-- Claim C10 witness: a one-message conversation; popping the copy leaves
the stored list intact and differing from the popped local array. -/
theorem getMessages_returns_copy_witness :
    (Conversation.getMessages ⟨[⟨.user, "hi"⟩]⟩).2 = (⟨[⟨.user, "hi"⟩]⟩ : Conversation) ∧
    (Conversation.getMessages ⟨[⟨.user, "hi"⟩]⟩).2.getMessageCount = 1 ∧
    jsPop (Conversation.getMessages ⟨[⟨.user, "hi"⟩]⟩).1
      ≠ ((Conversation.getMessages ⟨[⟨.user, "hi"⟩]⟩).2.getMessages).1 := by
  have h := getMessages_returns_copy ⟨[⟨.user, "hi"⟩]⟩
  exact ⟨h.1, h.2.2.2.1, h.2.2.2.2 (by decide)⟩

/-! ### Metrics claims -/

/-- Claim C9: `getSnapshot` mutates no aggregator state — every counter,
the latency collection and the start time are unchanged — and a second
snapshot taken from the post-call state with no record or reset operation
in between (the clock reading `now` is an explicit parameter, held fixed)
is identical to the first. -/
theorem getSnapshot_pure (s : ClientMetrics) (now : ℚ) :
    (s.getSnapshot now).2 = s ∧
    (s.getSnapshot now).2.requestsTotal = s.requestsTotal ∧
    (s.getSnapshot now).2.requestsSucceeded = s.requestsSucceeded ∧
    (s.getSnapshot now).2.requestsFailed = s.requestsFailed ∧
    (s.getSnapshot now).2.totalLatencyMs = s.totalLatencyMs ∧
    (s.getSnapshot now).2.latencies = s.latencies ∧
    (s.getSnapshot now).2.promptTokensTotal = s.promptTokensTotal ∧
    (s.getSnapshot now).2.completionTokensTotal = s.completionTokensTotal ∧
    (s.getSnapshot now).2.cacheHits = s.cacheHits ∧
    (s.getSnapshot now).2.cacheMisses = s.cacheMisses ∧
    (s.getSnapshot now).2.startTime = s.startTime ∧
    ((s.getSnapshot now).2.getSnapshot now).1 = (s.getSnapshot now).1 :=
  ⟨rfl, rfl, rfl, rfl, rfl, rfl, rfl, rfl, rfl, rfl, rfl, rfl⟩

/-- Claim C8: for a non-empty latency collection the percentile-p latency
is the element at rank `ceil(p / 100 * n) - 1` (clamped below by 0) of the
latencies sorted ascending (the sort used is a sorted permutation of the
input); on the claim's example `[10, 20, 30, 40, 100]` this gives p50 = 30
and p95 = 100; and with zero recorded latencies every percentile and the
snapshot's average latency report as 0 rather than raising an error. -/
theorem calculatePercentile_nearest_rank (l : List ℚ) (p : ℚ)
    (s : ClientMetrics) (now : ℚ) (hl : l ≠ []) (hs : s.latencies = []) :
    calculatePercentile l p
      = (l.insertionSort (· ≤ ·)).getD
          (max 0 (Int.ceil (p / 100 * (l.length : ℚ)) - 1)).toNat 0 ∧
    List.Sorted (· ≤ ·) (l.insertionSort (· ≤ ·)) ∧
    (l.insertionSort (· ≤ ·)).Perm l ∧
    calculatePercentile [10, 20, 30, 40, 100] 50 = 30 ∧
    calculatePercentile [10, 20, 30, 40, 100] 95 = 100 ∧
    calculatePercentile [] p = 0 ∧
    (s.getSnapshot now).1.averageLatencyMs = 0 ∧
    (s.getSnapshot now).1.p50LatencyMs = 0 ∧
    (s.getSnapshot now).1.p95LatencyMs = 0 ∧
    (s.getSnapshot now).1.p99LatencyMs = 0 := by
  have h50 : calculatePercentile [10, 20, 30, 40, 100] 50 = 30 := by
    have h : (⌈(5 : ℚ) / 2⌉ : ℤ) = 3 := by
      rw [Int.ceil_eq_iff]
      norm_num
    norm_num [calculatePercentile, List.insertionSort, List.orderedInsert, h]
    rfl
  have h95 : calculatePercentile [10, 20, 30, 40, 100] 95 = 100 := by
    have h : (⌈(19 : ℚ) / 4⌉ : ℤ) = 5 := by
      rw [Int.ceil_eq_iff]
      norm_num
    norm_num [calculatePercentile, List.insertionSort, List.orderedInsert, h]
    rfl
  refine ⟨by rw [calculatePercentile, if_neg hl], List.sorted_insertionSort _ l,
    List.perm_insertionSort _ l, h50, h95, by rw [calculatePercentile, if_pos rfl],
    ?_, ?_, ?_, ?_⟩ <;>
    simp [ClientMetrics.getSnapshot, hs, calculatePercentile]

/-- Claim C8 witness: the claim's five-point example, paired with a fresh
aggregator for the zero-observation half. -/
theorem calculatePercentile_nearest_rank_witness :
    calculatePercentile [10, 20, 30, 40, 100] 50
      = (([10, 20, 30, 40, 100] : List ℚ).insertionSort (· ≤ ·)).getD
          (max 0 (Int.ceil ((50 : ℚ) / 100 * (([10, 20, 30, 40, 100] : List ℚ).length : ℚ)) - 1)).toNat 0 ∧
    List.Sorted (· ≤ ·) (([10, 20, 30, 40, 100] : List ℚ).insertionSort (· ≤ ·)) ∧
    (([10, 20, 30, 40, 100] : List ℚ).insertionSort (· ≤ ·)).Perm [10, 20, 30, 40, 100] ∧
    calculatePercentile [10, 20, 30, 40, 100] 50 = 30 ∧
    calculatePercentile [10, 20, 30, 40, 100] 95 = 100 ∧
    calculatePercentile [] 50 = 0 ∧
    ((ClientMetrics.init 0).getSnapshot 7).1.averageLatencyMs = 0 ∧
    ((ClientMetrics.init 0).getSnapshot 7).1.p50LatencyMs = 0 ∧
    ((ClientMetrics.init 0).getSnapshot 7).1.p95LatencyMs = 0 ∧
    ((ClientMetrics.init 0).getSnapshot 7).1.p99LatencyMs = 0 :=
  calculatePercentile_nearest_rank [10, 20, 30, 40, 100] 50
    (ClientMetrics.init 0) 7 (by decide) rfl

/-! ### Fan-out claim -/

/-- Claim C7: `executeParallel` over N clients resolves with exactly N
results in input order; slot i carries client i's name and either its
successful response or a ClientError, any thrown value that is not a
ClientError being coerced to a Network-kind error with message
"Unknown error"; and the slot is a function of client i alone — replacing
every sibling (list `ds` agreeing with `cs` only at index i) leaves the
slot's outcome unchanged. -/
theorem executeParallel_slotwise (cs ds : List ParClient) (i : Nat)
    (hi : i < cs.length) (hagree : cs[i]? = ds[i]?) :
    (executeParallel cs).length = cs.length ∧
    ∃ c o, cs[i]? = some c ∧ (executeParallel cs)[i]? = some o ∧
      o.name = c.name ∧
      o.result = (match c.result with
        | .ok s => ParResult.success s
        | .error (.client ce) => ParResult.failure ce
        | .error _ => ParResult.failure (ClientError.network "Unknown error")) ∧
      (executeParallel ds)[i]? = some o := by
  have hc : cs[i]? = some cs[i] := List.getElem?_eq_getElem hi
  have hname : ∀ c : ParClient, (settleClient c).name = c.name := by
    intro c
    rcases h : c.result with e | s
    · cases e <;> simp [settleClient, h]
    · simp [settleClient, h]
  have hresult : ∀ c : ParClient,
      (settleClient c).result = (match c.result with
        | .ok s => ParResult.success s
        | .error (.client ce) => ParResult.failure ce
        | .error _ => ParResult.failure (ClientError.network "Unknown error")) := by
    intro c
    rcases h : c.result with e | s
    · cases e <;> simp [settleClient, h]
    · simp [settleClient, h]
  refine ⟨by simp [executeParallel], cs[i], settleClient cs[i], hc, ?_,
    hname cs[i], hresult cs[i], ?_⟩
  · rw [executeParallel, List.getElem?_map, hc]
    rfl
  · rw [executeParallel, List.getElem?_map, ← hagree, hc]
    rfl

/-- Claim C7 witness: three clients — a success, a ClientError rejection
and a non-Error rejection — and a sibling list differing away from slot 1. -/
theorem executeParallel_slotwise_witness :
    (executeParallel
        [⟨"Gpt", .ok "fine"⟩,
         ⟨"Claude", .error (.client (ClientError.authentication "bad key"))⟩,
         ⟨"Gemini", .error .nonError⟩]).length = 3 ∧
    ∃ c o,
      ([⟨"Gpt", .ok "fine"⟩,
        ⟨"Claude", .error (.client (ClientError.authentication "bad key"))⟩,
        ⟨"Gemini", .error .nonError⟩] : List ParClient)[1]? = some c ∧
      (executeParallel
        [⟨"Gpt", .ok "fine"⟩,
         ⟨"Claude", .error (.client (ClientError.authentication "bad key"))⟩,
         ⟨"Gemini", .error .nonError⟩])[1]? = some o ∧
      o.name = c.name ∧
      o.result = (match c.result with
        | .ok s => ParResult.success s
        | .error (.client ce) => ParResult.failure ce
        | .error _ => ParResult.failure (ClientError.network "Unknown error")) ∧
      (executeParallel
        [⟨"Other", .error .nonError⟩,
         ⟨"Claude", .error (.client (ClientError.authentication "bad key"))⟩])[1]? = some o :=
  executeParallel_slotwise
    [⟨"Gpt", .ok "fine"⟩,
     ⟨"Claude", .error (.client (ClientError.authentication "bad key"))⟩,
     ⟨"Gemini", .error .nonError⟩]
    [⟨"Other", .error .nonError⟩,
     ⟨"Claude", .error (.client (ClientError.authentication "bad key"))⟩]
    1 (by decide) rfl

/-! ### Streaming decoder claims -/

/-- Claim C4 counterexample: fed the claim's exact transport chunks, the
decoder yields only the final empty-content chunk — the reassembled payload
carries a bare delta string and no type field, so the source's
content_block_delta test fails and no content event "Hello" is produced.
The claimed output would have two chunks; the actual output has one. -/
theorem sendPromptStream_claim_chunks_counterexample :
    Claude.sendPromptStream ["data: \x7b\"delta\":\"He", "llo\"\x7d\ndata: [DONE]\n"]
      = [⟨Json.str "", true⟩] ∧
    ([⟨Json.str "", true⟩] : List StreamChunk)
      ≠ [⟨Json.str "Hello", false⟩, ⟨Json.str "", true⟩] := by
  constructor
  · rfl
  · intro h
    exact absurd (congrArg List.length h) (by decide)

/-- Claim C4 (amended): with the payload shape the source parses — a
content_block_delta event whose delta object carries the text, split
mid-line across two transport chunks — the decoder buffers the tail after
the last newline, prepends it to the next chunk, and yields exactly one
non-final content chunk carrying "Hello" followed by one final
empty-content chunk that terminates the sequence (material after the
sentinel is never decoded). -/
theorem sendPromptStream_cross_chunk_reassembly :
    Claude.sendPromptStream
        ["data: \x7b\"type\":\"content_block_delta\",\"delta\":\x7b\"text\":\"He",
         "llo\"\x7d\x7d\ndata: [DONE]\n"]
      = [⟨Json.str "Hello", false⟩, ⟨Json.str "", true⟩] ∧
    Claude.sendPromptStream
        ["data: \x7b\"type\":\"content_block_delta\",\"delta\":\x7b\"text\":\"He",
         "llo\"\x7d\x7d\ndata: [DONE]\n",
         "data: \x7b\"type\":\"content_block_delta\",\"delta\":\x7b\"text\":\"late\"\x7d\x7d\n"]
      = [⟨Json.str "Hello", false⟩, ⟨Json.str "", true⟩] :=
  ⟨rfl, rfl⟩

end ChatDelta
